import Mathlib

/-!  Verification of the image transform engine of the wavelet repository:
the fit transform `create_store_asset` of `generate_steam_assets.py`, the
sibling `resize_and_crop` of `capture_screenshots.py`, and the hero grid
composer `create_hero_with_logo`.  The Python arithmetic is embedded over
exact rationals (`ℚ` for the real-valued ratio computations, `ℤ` for the
integer computations), and the PIL primitives (`new`, `resize`, `crop`,
`paste`, `ImageDraw.rectangle`) are modelled geometrically: exact result
dimensions and region placement, with resampled content represented by a
deterministic sampling function (no geometric claim depends on the
resampling kernel).  Python exceptions are modelled with `Except`. -/

namespace Wavelet

/-- RGB color triple (channel values). -/
abbrev Color := Nat × Nat × Nat

/-- Pixel buffer with integer dimensions; `pix` gives the color at a
coordinate (values outside the `width × height` box are phantom and are
never inspected by in-bounds statements). -/
structure Image where
  width : Nat
  height : Nat
  pix : Nat → Nat → Color

/-- Python-level exceptions the embedded code can raise, together with the
two abstract error names that the specification document uses (the code
itself never raises those two). -/
inductive PyError where
  | zeroDivisionError
  | valueError
  | invalidDimension
  | emptyInput
deriving DecidableEq

/-- Fit strategies of `create_store_asset`. -/
inductive FitStrategy where
  | cover
  | contain
deriving DecidableEq

/-- Python `int()` applied to an exact rational: truncation toward zero.
On the nonnegative values arising in this code it coincides with the
floor. -/
def pyInt (q : ℚ) : ℤ := if 0 ≤ q then ⌊q⌋ else ⌈q⌉

/-- Models `PIL.Image.new(mode, (w, h), color)`: a constant image. -/
def Image.newPIL (w h : Nat) (c : Color) : Image := ⟨w, h, fun _ _ => c⟩

/-- Content produced by a successful `resize`: an image of exactly the
requested size whose pixels sample the source (stand-in for the LANCZOS
kernel; only the size and the sampling-of-the-source structure matter to
the claims). -/
def Image.resizeOk (img : Image) (w h : ℤ) : Image :=
  ⟨w.toNat, h.toNat, fun x y =>
    img.pix (x * img.width / w.toNat) (y * img.height / h.toNat)⟩

/-- Models `PIL.Image.resize((w, h), LANCZOS)`: returns an image of exactly
the requested size; raises `ValueError` ("height and width must be > 0")
when a requested dimension is not positive. -/
def Image.resizePIL (img : Image) (w h : ℤ) : Except PyError Image :=
  if w ≤ 0 ∨ h ≤ 0 then .error .valueError else .ok (img.resizeOk w h)

/-- Models `PIL.Image.crop((left, top, right, bottom))` for boxes with
`left ≤ right` and `top ≤ bottom` (the only boxes this code builds): the
result has size `(right - left) × (bottom - top)`, and regions outside
the source image read as black. -/
def Image.cropPIL (img : Image) (left top right bottom : Nat) : Image :=
  ⟨right - left, bottom - top, fun x y =>
    if left + x < img.width ∧ top + y < img.height then
      img.pix (left + x) (top + y)
    else (0, 0, 0)⟩

/-- Models `PIL.Image.paste(src, (px, py))`: overwrites the `src`-sized
region whose top-left corner is `(px, py)` (offsets may be negative; the
pasted region is clipped at the canvas border, which the total `pix`
function realises automatically). -/
def Image.pastePIL (canvas src : Image) (px py : ℤ) : Image :=
  ⟨canvas.width, canvas.height, fun x y =>
    if px ≤ (x : ℤ) ∧ (x : ℤ) < px + src.width ∧
        py ≤ (y : ℤ) ∧ (y : ℤ) < py + src.height then
      src.pix ((x : ℤ) - px).toNat ((y : ℤ) - py).toNat
    else canvas.pix x y⟩

/-- Models `ImageDraw.Draw(im).rectangle([x0, y0, x1, y1], fill)`: fills
the inclusive rectangle (clipped at the canvas border). -/
def Image.drawRect (canvas : Image) (x0 y0 x1 y1 : ℤ) (c : Color) : Image :=
  ⟨canvas.width, canvas.height, fun x y =>
    if x0 ≤ (x : ℤ) ∧ (x : ℤ) ≤ x1 ∧ y0 ≤ (y : ℤ) ∧ (y : ℤ) ≤ y1 then c
    else canvas.pix x y⟩

/-- The real-valued aspect ratio `w / h` used by both Python files
(`source_ratio`, `target_ratio`, `img_ratio`). -/
def ratio (w h : Nat) : ℚ := (w : ℚ) / (h : ℚ)

/-- Scaled size chosen by the cover branch of `create_store_asset`
(generate_steam_assets.py lines 49–59) and, with the same formulas, by
`resize_and_crop` (capture_screenshots.py lines 208–215): wider sources
scale to the target height, others to the target width, the free
dimension being `int(...)` of the ratio arithmetic. -/
def cover_new_size (sw sh tw th : Nat) : Nat × Nat :=
  if ratio sw sh > ratio tw th then
    ((pyInt ((th : ℚ) * ratio sw sh)).toNat, th)
  else
    (tw, (pyInt ((tw : ℚ) / ratio sw sh)).toNat)

/-- Scaled size chosen by the contain branch of `create_store_asset`
(lines 66–74): the branch roles are swapped relative to cover. -/
def contain_new_size (sw sh tw th : Nat) : Nat × Nat :=
  if ratio sw sh > ratio tw th then
    (tw, (pyInt ((tw : ℚ) / ratio sw sh)).toNat)
  else
    ((pyInt ((th : ℚ) * ratio sw sh)).toNat, th)

/-- Paste offset used by the contain branch: `(0, (target_h - new_h) // 2)`
for relatively wide sources, `((target_w - new_w) // 2, 0)` otherwise
(lines 70–77).  `ℤ` division by 2 is floor division on these values. -/
def contain_offset (sw sh tw th : Nat) : ℤ × ℤ :=
  if ratio sw sh > ratio tw th then
    (0, ((th : ℤ) - ((contain_new_size sw sh tw th).2 : ℤ)) / 2)
  else
    (((tw : ℤ) - ((contain_new_size sw sh tw th).1 : ℤ)) / 2, 0)

/-- The horizontal crop offset `left = (new_w - target_w) // 2` that the
cover branch computes on line 54 and then never uses. -/
def cover_unused_left (new_w tw : Nat) : ℤ := ((new_w : ℤ) - (tw : ℤ)) / 2

/-- The vertical crop offset `top = (new_h - target_h) // 2` that the
cover branch computes on line 61 and then never uses. -/
def cover_unused_top (new_h th : Nat) : ℤ := ((new_h : ℤ) - (th : ℤ)) / 2

/-- Embedding of `create_store_asset` (generate_steam_assets.py lines
31–87): the pure transform from the decoded source image to the produced
asset image.  File open/convert/save and the watermark stub (an
`ImageDraw.Draw` handle that is created but never drawn with) are I/O
glue outside the transform.  The ratio divisions raise
`ZeroDivisionError` on a zero divisor (lines 44, 45, 59); `resize` can
raise `ValueError`; in the cover branches the centering offsets are
computed but the crop box is `(0, 0, target_w, target_h)` (lines 55, 62). -/
def create_store_asset (source : Image) (size : Nat × Nat)
    (fit_strategy : FitStrategy) : Except PyError Image :=
  let target_w := size.1
  let target_h := size.2
  if target_h = 0 then .error .zeroDivisionError else
  let target_ratio := ratio target_w target_h
  if source.height = 0 then .error .zeroDivisionError else
  let source_ratio := ratio source.width source.height
  match fit_strategy with
  | .cover =>
    if source_ratio > target_ratio then
      let new_w := (cover_new_size source.width source.height target_w target_h).1
      let new_h := target_h
      match source.resizePIL (new_w : ℤ) (new_h : ℤ) with
      | .error e => .error e
      | .ok resized =>
        let _left := cover_unused_left new_w target_w
        .ok (resized.cropPIL 0 0 target_w target_h)
    else
      if source_ratio = 0 then .error .zeroDivisionError else
      let new_w := target_w
      let new_h := (cover_new_size source.width source.height target_w target_h).2
      match source.resizePIL (new_w : ℤ) (new_h : ℤ) with
      | .error e => .error e
      | .ok resized =>
        let _top := cover_unused_top new_h target_h
        .ok (resized.cropPIL 0 0 target_w target_h)
  | .contain =>
    let background := Image.newPIL target_w target_h (0, 0, 0)
    let nw := (contain_new_size source.width source.height target_w target_h).1
    let nh := (contain_new_size source.width source.height target_w target_h).2
    match source.resizePIL (nw : ℤ) (nh : ℤ) with
    | .error e => .error e
    | .ok resized_source =>
      .ok (background.pastePIL resized_source
        (contain_offset source.width source.height target_w target_h).1
        (contain_offset source.width source.height target_w target_h).2)

/-- Embedding of `resize_and_crop` (capture_screenshots.py lines 203–225):
same scaled-size computation as the cover branch, but the crop box is the
centered `(left, top, left + target_width, top + target_height)`.  The
`Nat` subtractions in the offsets agree with the Python `int` arithmetic
because `new_width ≥ target_width` and `new_height ≥ target_height` hold
whenever this point is reached (proved below). -/
def resize_and_crop (img : Image) (target_width target_height : Nat) :
    Except PyError Image :=
  if img.height = 0 then .error .zeroDivisionError else
  let img_ratio := ratio img.width img.height
  if target_height = 0 then .error .zeroDivisionError else
  let target_ratio := ratio target_width target_height
  if img_ratio > target_ratio then
    let new_width := (cover_new_size img.width img.height target_width target_height).1
    let new_height := target_height
    match img.resizePIL (new_width : ℤ) (new_height : ℤ) with
    | .error e => .error e
    | .ok resized =>
      let left := (new_width - target_width) / 2
      let top := (new_height - target_height) / 2
      .ok (resized.cropPIL left top (left + target_width) (top + target_height))
  else
    if img_ratio = 0 then .error .zeroDivisionError else
    let new_width := target_width
    let new_height := (cover_new_size img.width img.height target_width target_height).2
    match img.resizePIL (new_width : ℤ) (new_height : ℤ) with
    | .error e => .error e
    | .ok resized =>
      let left := (new_width - target_width) / 2
      let top := (new_height - target_height) / 2
      .ok (resized.cropPIL left top (left + target_width) (top + target_height))

/-- Column count of `create_hero_with_logo` (line 99): `min(4, n)` where
`n` is the raw length of `source_paths` (before any truncation). -/
def hero_cols (n : Nat) : Nat := min 4 n

/-- Row count (line 100): `(n + cols - 1) // cols`, again from the raw
length `n`.  For `n = 0` the Python code raises `ZeroDivisionError`
(guarded in `create_hero_with_logo` below); the value of this total
function at `n = 0` is never used. -/
def hero_rows (n : Nat) : Nat := (n + hero_cols n - 1) / hero_cols n

/-- Padding (line 101): `int(target_w * 0.02)`. -/
def hero_padding (target_w : Nat) : ℤ := pyInt ((target_w : ℚ) * (2 / 100))

/-- Gap between tiles (line 102): equal to the padding. -/
def hero_gap (target_w : Nat) : ℤ := hero_padding target_w

/-- Tile width (line 104): `(target_w - padding * (cols + 1)) // cols`,
Python floor division, which on the positive divisor `cols` agrees with
`ℤ` division. -/
def hero_cell_w (target_w n : Nat) : ℤ :=
  ((target_w : ℤ) - hero_padding target_w * ((hero_cols n : ℤ) + 1)) / (hero_cols n : ℤ)

/-- Tile height (line 105): `int(cell_w * 9/16)`, i.e. truncation of the
exact value `(cell_w * 9) / 16`. -/
def hero_cell_h (target_w n : Nat) : ℤ :=
  pyInt (((hero_cell_w target_w n : ℚ)) * 9 / 16)

/-- Total grid height (line 106): `padding + cell_h * rows + gap * (rows - 1)`. -/
def hero_total_h (target_w n : Nat) : ℤ :=
  hero_padding target_w + hero_cell_h target_w n * (hero_rows n : ℤ) +
    hero_gap target_w * ((hero_rows n : ℤ) - 1)

/-- Vertical start of the grid (line 107): `(target_h - total_h) // 2`;
negative when the grid overflows the canvas. -/
def hero_start_y (target_w target_h n : Nat) : ℤ :=
  ((target_h : ℤ) - hero_total_h target_w n) / 2

/-- Horizontal position of tile `i` (lines 115–117):
`padding + (i % cols) * (cell_w + gap)`. -/
def hero_tile_x (target_w n i : Nat) : ℤ :=
  hero_padding target_w + ((i % hero_cols n : Nat) : ℤ) * (hero_cell_w target_w n + hero_gap target_w)

/-- Vertical position of tile `i` (lines 116–118):
`start_y + (i // cols) * (cell_h + gap)`. -/
def hero_tile_y (target_w target_h n i : Nat) : ℤ :=
  hero_start_y target_w target_h n + ((i / hero_cols n : Nat) : ℤ) * (hero_cell_h target_w n + hero_gap target_w)

/-- Tile-pasting loop of `create_hero_with_logo` (lines 110–121): each
tile of `source_paths[:12]` is force-resized to `cell_w × cell_h` and
pasted at its grid position; `i` is the running `enumerate` index.  A
`resize` failure aborts the whole call (no partial result escapes). -/
def paste_tiles (target_w target_h n : Nat) (canvas : Image)
    (tiles : List Image) (i : Nat) : Except PyError Image :=
  match tiles with
  | [] => .ok canvas
  | img :: rest =>
    match img.resizePIL (hero_cell_w target_w n) (hero_cell_h target_w n) with
    | .error e => .error e
    | .ok resized =>
      paste_tiles target_w target_h n
        (canvas.pastePIL resized (hero_tile_x target_w n i) (hero_tile_y target_w target_h n i))
        rest (i + 1)

/-- Embedding of `create_hero_with_logo` (generate_steam_assets.py lines
89–131): background canvas of the requested size, grid layout computed
from the raw source count, tiles pasted for the first 12 sources in
order, then the solid title-bar rectangle.  With no sources, `cols = 0`
and line 100 raises `ZeroDivisionError`.  File I/O is external glue. -/
def create_hero_with_logo (source_paths : List Image) (size : Nat × Nat) :
    Except PyError Image :=
  let target_w := size.1
  let target_h := size.2
  let bg := Image.newPIL target_w target_h (15, 15, 25)
  let n := source_paths.length
  if hero_cols n = 0 then .error .zeroDivisionError else
  match paste_tiles target_w target_h n bg (source_paths.take 12) 0 with
  | .error e => .error e
  | .ok canvas =>
    let title_y := hero_start_y target_w target_h n - 80
    .ok (canvas.drawRect (hero_padding target_w) title_y
      (hero_padding target_w + 400) (title_y + 60) (100, 100, 200))

/-- Width and height of a fit result, `none` on failure. -/
def exceptSize : Except PyError Image → Option (Nat × Nat)
  | .error _ => none
  | .ok img => some (img.width, img.height)

/-- Pixel probe of a fit result, `none` on failure. -/
def exceptPix : Except PyError Image → Nat → Nat → Option Color
  | .error _, _, _ => none
  | .ok img, x, y => some (img.pix x y)

/-- Coordinate-gradient test image: pixel `(x, y)` has color `(x, y, 0)`. -/
def gradImg (w h : Nat) : Image := ⟨w, h, fun x y => (x, y, 0)⟩

/-- Constant-color test image. -/
def constImg (w h : Nat) (c : Color) : Image := ⟨w, h, fun _ _ => c⟩

theorem pyInt_of_nonneg {q : ℚ} (h : 0 ≤ q) : pyInt q = ⌊q⌋ := if_pos h

theorem pyInt_nonneg {q : ℚ} (h : 0 ≤ q) : 0 ≤ pyInt q := by
  rw [pyInt_of_nonneg h]
  exact Int.floor_nonneg.mpr h

theorem ratio_nonneg (w h : Nat) : 0 ≤ ratio w h := by
  unfold ratio
  positivity

theorem ratio_pos {w h : Nat} (hw : 0 < w) (hh : 0 < h) : 0 < ratio w h := by
  unfold ratio
  have hw' : (0 : ℚ) < (w : ℚ) := by exact_mod_cast hw
  have hh' : (0 : ℚ) < (h : ℚ) := by exact_mod_cast hh
  exact div_pos hw' hh'

theorem pos_of_ratio_pos {w h : Nat} (hp : 0 < ratio w h) : 0 < w ∧ 0 < h := by
  constructor
  · rcases Nat.eq_zero_or_pos w with hw | hw
    · exfalso
      rw [hw] at hp
      simp [ratio] at hp
    · exact hw
  · rcases Nat.eq_zero_or_pos h with hh | hh
    · exfalso
      rw [hh] at hp
      simp [ratio] at hp
    · exact hh

theorem ratio_mul_self {w h : Nat} (hh : h ≠ 0) :
    ratio w h * (h : ℚ) = (w : ℚ) := by
  unfold ratio
  have : ((h : ℚ)) ≠ 0 := Nat.cast_ne_zero.mpr hh
  field_simp

/-- In the height-driven cover branch the scaled width is at least the
target width. -/
theorem cover_new_size_fst_ge {sw sh tw th : Nat} (hth : 0 < th)
    (hgt : ratio tw th < ratio sw sh) :
    tw ≤ (cover_new_size sw sh tw th).1 := by
  unfold cover_new_size
  rw [if_pos hgt]
  have hq : (0 : ℚ) ≤ (th : ℚ) * ratio sw sh := by
    have := ratio_nonneg sw sh
    positivity
  have hle : (tw : ℚ) ≤ (th : ℚ) * ratio sw sh := by
    have h1 : (tw : ℚ) = ratio tw th * (th : ℚ) := by
      rcases Nat.eq_zero_or_pos tw with h0 | h0
      · subst h0
        simp [ratio]
      · exact (ratio_mul_self hth.ne').symm
    calc (tw : ℚ) = ratio tw th * (th : ℚ) := h1
      _ ≤ ratio sw sh * (th : ℚ) := by
          apply mul_le_mul_of_nonneg_right hgt.le
          positivity
      _ = (th : ℚ) * ratio sw sh := mul_comm _ _
  have h2 : (tw : ℤ) ≤ ⌊(th : ℚ) * ratio sw sh⌋ := by
    rw [Int.le_floor]
    exact_mod_cast hle
  simp only [pyInt_of_nonneg hq]
  omega

/-- In the width-driven cover branch the scaled height is at least the
target height (the branch is only reachable with a nonzero source
ratio). -/
theorem cover_new_size_snd_ge {sw sh tw th : Nat} (hth : 0 < th)
    (hsr : 0 < ratio sw sh) (hle : ratio sw sh ≤ ratio tw th) :
    th ≤ (cover_new_size sw sh tw th).2 := by
  unfold cover_new_size
  rw [if_neg (not_lt.mpr hle)]
  have htr : 0 < ratio tw th := lt_of_lt_of_le hsr hle
  have htw : 0 < tw := (pos_of_ratio_pos htr).1
  have hq : (0 : ℚ) ≤ (tw : ℚ) / ratio sw sh := by
    have := ratio_nonneg tw th
    positivity
  have hle2 : (th : ℚ) ≤ (tw : ℚ) / ratio sw sh := by
    rw [le_div_iff₀ hsr]
    calc (th : ℚ) * ratio sw sh ≤ (th : ℚ) * ratio tw th := by
          apply mul_le_mul_of_nonneg_left hle
          positivity
      _ = ratio tw th * (th : ℚ) := mul_comm _ _
      _ = (tw : ℚ) := ratio_mul_self hth.ne'
  have h2 : (th : ℤ) ≤ ⌊(tw : ℚ) / ratio sw sh⌋ := by
    rw [Int.le_floor]
    exact_mod_cast hle2
  simp only [pyInt_of_nonneg hq]
  omega

theorem resizePIL_ok (img : Image) {w h : ℤ} (hw : 0 < w) (hh : 0 < h) :
    img.resizePIL w h = .ok (img.resizeOk w h) := by
  simp [Image.resizePIL, not_le.mpr hw, not_le.mpr hh]

theorem resizePIL_err (img : Image) {w h : ℤ} (hwh : w ≤ 0 ∨ h ≤ 0) :
    img.resizePIL w h = .error .valueError := by
  simp [Image.resizePIL, hwh]

/-- Integer-division centering offsets are symmetric within one pixel:
the two margins `l = (n - t) // 2` and `n - t - l` differ by at most 1. -/
theorem crop_offsets_symmetric (n t : Nat) (h : t ≤ n) :
    (n - t) / 2 ≤ n - t - (n - t) / 2 ∧ n - t - (n - t) / 2 - (n - t) / 2 ≤ 1 := by
  omega

/-- Height-driven cover branch of `create_store_asset`, fully evaluated:
the result is the top-left crop of the scaled image. -/
theorem create_store_asset_cover_wide {source : Image} {tw th : Nat}
    (hth : 0 < th) (hsh : 0 < source.height)
    (hgt : ratio tw th < ratio source.width source.height)
    (hnw : 0 < (cover_new_size source.width source.height tw th).1) :
    create_store_asset source (tw, th) .cover =
      .ok ((source.resizeOk ((cover_new_size source.width source.height tw th).1 : ℤ)
        (th : ℤ)).cropPIL 0 0 tw th) := by
  have hw' : (0 : ℤ) < ((cover_new_size source.width source.height tw th).1 : ℤ) := by
    exact_mod_cast hnw
  have hh' : (0 : ℤ) < (th : ℤ) := by exact_mod_cast hth
  simp only [create_store_asset]
  rw [if_neg hth.ne', if_neg hsh.ne', if_pos hgt, resizePIL_ok source hw' hh']

/-- Width-driven cover branch of `create_store_asset`, fully evaluated. -/
theorem create_store_asset_cover_tall {source : Image} {tw th : Nat}
    (hth : 0 < th) (hsh : 0 < source.height)
    (hle : ratio source.width source.height ≤ ratio tw th)
    (hsr : 0 < ratio source.width source.height)
    (htw : 0 < tw)
    (hnh : 0 < (cover_new_size source.width source.height tw th).2) :
    create_store_asset source (tw, th) .cover =
      .ok ((source.resizeOk (tw : ℤ)
        ((cover_new_size source.width source.height tw th).2 : ℤ)).cropPIL 0 0 tw th) := by
  have hw' : (0 : ℤ) < (tw : ℤ) := by exact_mod_cast htw
  have hh' : (0 : ℤ) < ((cover_new_size source.width source.height tw th).2 : ℤ) := by
    exact_mod_cast hnh
  simp only [create_store_asset]
  rw [if_neg hth.ne', if_neg hsh.ne', if_neg (not_lt.mpr hle), if_neg hsr.ne',
    resizePIL_ok source hw' hh']

/-- Contain branch of `create_store_asset`, fully evaluated when the
computed scaled size is positive: the scaled source is pasted onto the
black target-sized background at the contain offset. -/
theorem create_store_asset_contain {source : Image} {tw th : Nat}
    (hth : 0 < th) (hsh : 0 < source.height)
    (hnw : 0 < (contain_new_size source.width source.height tw th).1)
    (hnh : 0 < (contain_new_size source.width source.height tw th).2) :
    create_store_asset source (tw, th) .contain =
      .ok ((Image.newPIL tw th (0, 0, 0)).pastePIL
        (source.resizeOk ((contain_new_size source.width source.height tw th).1 : ℤ)
          ((contain_new_size source.width source.height tw th).2 : ℤ))
        (contain_offset source.width source.height tw th).1
        (contain_offset source.width source.height tw th).2) := by
  have hw' : (0 : ℤ) < ((contain_new_size source.width source.height tw th).1 : ℤ) := by
    exact_mod_cast hnw
  have hh' : (0 : ℤ) < ((contain_new_size source.width source.height tw th).2 : ℤ) := by
    exact_mod_cast hnh
  simp only [create_store_asset]
  rw [if_neg hth.ne', if_neg hsh.ne', resizePIL_ok source hw' hh']

/-- Contain branch of `create_store_asset` when a computed scaled
dimension degenerates to zero: the `resize` call fails. -/
theorem create_store_asset_contain_err {source : Image} {tw th : Nat}
    (hth : 0 < th) (hsh : 0 < source.height)
    (hz : (contain_new_size source.width source.height tw th).1 = 0 ∨
      (contain_new_size source.width source.height tw th).2 = 0) :
    create_store_asset source (tw, th) .contain = .error .valueError := by
  have hz' : ((contain_new_size source.width source.height tw th).1 : ℤ) ≤ 0 ∨
      ((contain_new_size source.width source.height tw th).2 : ℤ) ≤ 0 := by
    rcases hz with h | h
    · exact Or.inl (by exact_mod_cast h.le)
    · exact Or.inr (by exact_mod_cast h.le)
  simp only [create_store_asset]
  rw [if_neg hth.ne', if_neg hsh.ne', resizePIL_err source hz']

theorem contain_new_size_wide_fst {sw sh tw th : Nat}
    (hgt : ratio tw th < ratio sw sh) :
    (contain_new_size sw sh tw th).1 = tw := by
  unfold contain_new_size
  rw [if_pos hgt]

/-- In the wide contain branch the scaled height is strictly below the
target height. -/
theorem contain_new_size_wide_snd_lt {sw sh tw th : Nat} (htw : 0 < tw) (hth : 0 < th)
    (hgt : ratio tw th < ratio sw sh) :
    (contain_new_size sw sh tw th).2 < th := by
  unfold contain_new_size
  rw [if_pos hgt]
  have htr : 0 < ratio tw th := ratio_pos htw hth
  have hsr : 0 < ratio sw sh := lt_trans htr hgt
  have hq : (0 : ℚ) ≤ (tw : ℚ) / ratio sw sh := by positivity
  have hlt : (tw : ℚ) / ratio sw sh < (th : ℚ) := by
    have h1 : (tw : ℚ) / ratio sw sh < (tw : ℚ) / ratio tw th :=
      div_lt_div_of_pos_left (by exact_mod_cast htw) htr hgt
    have h2 : (tw : ℚ) / ratio tw th = (th : ℚ) := by
      rw [eq_comm, eq_div_iff htr.ne']
      rw [mul_comm]
      exact ratio_mul_self hth.ne'
    rw [h2] at h1
    exact h1
  have h3 : ⌊(tw : ℚ) / ratio sw sh⌋ < (th : ℤ) := by
    have := Int.floor_le ((tw : ℚ) / ratio sw sh)
    have h4 : (⌊(tw : ℚ) / ratio sw sh⌋ : ℚ) < (th : ℚ) := lt_of_le_of_lt this hlt
    exact_mod_cast h4
  simp only [pyInt_of_nonneg hq]
  omega

theorem contain_new_size_tall_snd {sw sh tw th : Nat}
    (hle : ratio sw sh ≤ ratio tw th) :
    (contain_new_size sw sh tw th).2 = th := by
  unfold contain_new_size
  rw [if_neg (not_lt.mpr hle)]

/-- In the tall contain branch the scaled width is at most the target
width. -/
theorem contain_new_size_tall_fst_le {sw sh tw th : Nat} (hth : 0 < th)
    (hle : ratio sw sh ≤ ratio tw th) :
    (contain_new_size sw sh tw th).1 ≤ tw := by
  unfold contain_new_size
  rw [if_neg (not_lt.mpr hle)]
  have hq : (0 : ℚ) ≤ (th : ℚ) * ratio sw sh := by
    have := ratio_nonneg sw sh
    positivity
  have hle2 : (th : ℚ) * ratio sw sh ≤ (tw : ℚ) := by
    calc (th : ℚ) * ratio sw sh ≤ (th : ℚ) * ratio tw th := by
          apply mul_le_mul_of_nonneg_left hle
          positivity
      _ = ratio tw th * (th : ℚ) := mul_comm _ _
      _ = (tw : ℚ) := ratio_mul_self hth.ne'
  have h3 : ⌊(th : ℚ) * ratio sw sh⌋ ≤ (tw : ℤ) := by
    rw [Int.floor_le_iff]
    calc (th : ℚ) * ratio sw sh ≤ (tw : ℚ) := hle2
      _ < (tw : ℚ) + 1 := by linarith
  simp only [pyInt_of_nonneg hq]
  omega

/-- `resize_and_crop`, fully evaluated on a nondegenerate source and
target: the centered crop of the scaled image (the expression is branch
independent because `cover_new_size` pins the driven dimension to the
target). -/
theorem resize_and_crop_eval {img : Image} {tw th : Nat}
    (htw : 0 < tw) (hth : 0 < th) (hsw : 0 < img.width) (hsh : 0 < img.height) :
    resize_and_crop img tw th =
      .ok ((img.resizeOk ((cover_new_size img.width img.height tw th).1 : ℤ)
          ((cover_new_size img.width img.height tw th).2 : ℤ)).cropPIL
        (((cover_new_size img.width img.height tw th).1 - tw) / 2)
        (((cover_new_size img.width img.height tw th).2 - th) / 2)
        ((((cover_new_size img.width img.height tw th).1 - tw) / 2) + tw)
        ((((cover_new_size img.width img.height tw th).2 - th) / 2) + th)) := by
  have hsr : 0 < ratio img.width img.height := ratio_pos hsw hsh
  simp only [resize_and_crop]
  rw [if_neg hsh.ne', if_neg hth.ne']
  rcases lt_or_le (ratio tw th) (ratio img.width img.height) with hgt | hle
  · have e2 : (cover_new_size img.width img.height tw th).2 = th := by
      unfold cover_new_size
      rw [if_pos hgt]
    have hnw : 0 < (cover_new_size img.width img.height tw th).1 :=
      lt_of_lt_of_le htw (cover_new_size_fst_ge hth hgt)
    have hw' : (0 : ℤ) < ((cover_new_size img.width img.height tw th).1 : ℤ) := by
      exact_mod_cast hnw
    have hh' : (0 : ℤ) < (th : ℤ) := by exact_mod_cast hth
    rw [if_pos hgt, resizePIL_ok img hw' hh', e2]
  · have e1 : (cover_new_size img.width img.height tw th).1 = tw := by
      unfold cover_new_size
      rw [if_neg (not_lt.mpr hle)]
    have hnh : 0 < (cover_new_size img.width img.height tw th).2 :=
      lt_of_lt_of_le hth (cover_new_size_snd_ge hth hsr hle)
    have hw' : (0 : ℤ) < (tw : ℤ) := by exact_mod_cast htw
    have hh' : (0 : ℤ) < ((cover_new_size img.width img.height tw th).2 : ℤ) := by
      exact_mod_cast hnh
    rw [if_neg (not_lt.mpr hle), if_neg hsr.ne', resizePIL_ok img hw' hh', e1]

theorem create_store_asset_cover_size {source : Image} {tw th : Nat}
    (hsw : 0 < source.width) (hsh : 0 < source.height) (htw : 0 < tw) (hth : 0 < th) :
    exceptSize (create_store_asset source (tw, th) .cover) = some (tw, th) := by
  have hsr : 0 < ratio source.width source.height := ratio_pos hsw hsh
  rcases lt_or_le (ratio tw th) (ratio source.width source.height) with hgt | hle
  · have hnw := lt_of_lt_of_le htw (cover_new_size_fst_ge hth hgt)
    rw [create_store_asset_cover_wide hth hsh hgt hnw]
    simp [exceptSize, Image.cropPIL]
  · have hnh := lt_of_lt_of_le hth (cover_new_size_snd_ge hth hsr hle)
    rw [create_store_asset_cover_tall hth hsh hle hsr htw hnh]
    simp [exceptSize, Image.cropPIL]

theorem create_store_asset_contain_size {source : Image} {tw th : Nat}
    (hsh : 0 < source.height) (hth : 0 < th)
    (hnw : 0 < (contain_new_size source.width source.height tw th).1)
    (hnh : 0 < (contain_new_size source.width source.height tw th).2) :
    exceptSize (create_store_asset source (tw, th) .contain) = some (tw, th) := by
  rw [create_store_asset_contain hth hsh hnw hnh]
  simp [exceptSize, Image.pastePIL, Image.newPIL]

theorem resize_and_crop_size {img : Image} {tw th : Nat}
    (htw : 0 < tw) (hth : 0 < th) (hsw : 0 < img.width) (hsh : 0 < img.height) :
    exceptSize (resize_and_crop img tw th) = some (tw, th) := by
  rw [resize_and_crop_eval htw hth hsw hsh]
  simp only [exceptSize, Image.cropPIL]
  have h1 : ((cover_new_size img.width img.height tw th).1 - tw) / 2 + tw -
      ((cover_new_size img.width img.height tw th).1 - tw) / 2 = tw := by omega
  have h2 : ((cover_new_size img.width img.height tw th).2 - th) / 2 + th -
      ((cover_new_size img.width img.height tw th).2 - th) / 2 = th := by omega
  rw [h1, h2]

/-- C2: for positive source and target dimensions the Cover transform and
`resize_and_crop` always return an image of exactly the target size, and
the Contain transform does so exactly when its computed scaled size is
positive — in the degenerate extreme-aspect case Contain instead raises
`ValueError` from resizing to a zero dimension (the amendment the
counterexample forces). -/
theorem C2_exact_target_dims {source : Image} {tw th : Nat}
    (hsw : 0 < source.width) (hsh : 0 < source.height) (htw : 0 < tw) (hth : 0 < th) :
    exceptSize (create_store_asset source (tw, th) .cover) = some (tw, th) ∧
    exceptSize (resize_and_crop source tw th) = some (tw, th) ∧
    (0 < (contain_new_size source.width source.height tw th).1 ∧
        0 < (contain_new_size source.width source.height tw th).2 →
      exceptSize (create_store_asset source (tw, th) .contain) = some (tw, th)) ∧
    ((contain_new_size source.width source.height tw th).1 = 0 ∨
        (contain_new_size source.width source.height tw th).2 = 0 →
      create_store_asset source (tw, th) .contain = .error .valueError) := by
  refine ⟨create_store_asset_cover_size hsw hsh htw hth,
    resize_and_crop_size htw hth hsw hsh, fun h => ?_, fun h => ?_⟩
  · exact create_store_asset_contain_size hsh hth h.1 h.2
  · exact create_store_asset_contain_err hth hsh h

/-- C2 witness: a 1920×1080 source against the 462×174 small-capsule
target, where Cover, `resize_and_crop` and Contain all return exactly
462×174. -/
theorem C2_exact_target_dims_witness :
    exceptSize (create_store_asset (constImg 1920 1080 (9, 9, 9)) (462, 174) .cover)
        = some (462, 174) ∧
    exceptSize (resize_and_crop (constImg 1920 1080 (9, 9, 9)) 462 174)
        = some (462, 174) ∧
    exceptSize (create_store_asset (constImg 1920 1080 (9, 9, 9)) (462, 174) .contain)
        = some (462, 174) := by
  have h := @C2_exact_target_dims (constImg 1920 1080 (9, 9, 9))
    462 174 (by decide) (by decide) (by decide) (by decide)
  refine ⟨h.1, h.2.1, h.2.2.1 ?_⟩
  constructor
  · norm_num [contain_new_size, constImg, ratio, pyInt]
  · norm_num [contain_new_size, constImg, ratio, pyInt]

/-- C2 counterexample: a 1000×1 source with a 2×2 target under Contain
raises `ValueError` (the computed scaled height is
`int(2 / 1000.0) = 0`), so no image of the target size is returned. -/
theorem C2_contain_counterexample :
    create_store_asset (constImg 1000 1 (0, 0, 0)) (2, 2) .contain
        = .error .valueError ∧
    exceptSize (create_store_asset (constImg 1000 1 (0, 0, 0)) (2, 2) .contain)
        ≠ some (2, 2) := by
  have h : create_store_asset (constImg 1000 1 (0, 0, 0)) (2, 2) .contain
      = .error .valueError := by
    apply create_store_asset_contain_err (by decide) (by decide)
    right
    norm_num [contain_new_size, constImg, ratio, pyInt]
  exact ⟨h, by rw [h]; simp [exceptSize]⟩

/-- In the width-driven cover branch the scaled height is the floor of
the exact quotient, i.e. integer division `target_w * source_h / source_w`. -/
theorem cover_new_size_snd_eq_div {sw sh tw th : Nat} (hsh : 0 < sh)
    (hle : ratio sw sh ≤ ratio tw th) :
    (cover_new_size sw sh tw th).2 = tw * sh / sw := by
  rcases Nat.eq_zero_or_pos sw with hsw | hsw
  · subst hsw
    unfold cover_new_size
    rw [if_neg (not_lt.mpr hle)]
    simp [ratio, pyInt]
  unfold cover_new_size
  rw [if_neg (not_lt.mpr hle)]
  have hsr : 0 < ratio sw sh := ratio_pos hsw hsh
  have hq : (0 : ℚ) ≤ (tw : ℚ) / ratio sw sh := by positivity
  rw [pyInt_of_nonneg hq]
  have heq : (tw : ℚ) / ratio sw sh = ((tw * sh : ℕ) : ℚ) / ((sw : ℕ) : ℚ) := by
    unfold ratio
    have h1 : ((sh : ℚ)) ≠ 0 := Nat.cast_ne_zero.mpr hsh.ne'
    have h2 : ((sw : ℚ)) ≠ 0 := Nat.cast_ne_zero.mpr hsw.ne'
    push_cast
    field_simp
  rw [heq, Rat.floor_natCast_div_natCast, ← Int.natCast_div, Int.toNat_natCast]

set_option maxRecDepth 8000 in
/-- C1: the Cover crop of `create_store_asset` is NOT centered — at the
1920×1080 source and 462×174 target it computes the centering offset
`top = (259 - 174) // 2 = 42` but crops the box `(0, 0, 462, 174)`, so
output pixel (0,0) is pixel (0,0) of the scaled image; the sibling
`resize_and_crop` of capture_screenshots.py does center (its output
pixel (0,0) is pixel (0,42) of the scaled image, sampling source row
175); the offset the cover crop actually applies (0) misses the
symmetry requirement by 85 rows, far outside ±1. -/
theorem C1_cover_crop_not_centered :
    exceptPix (create_store_asset (gradImg 1920 1080) (462, 174) .cover) 0 0
        = some (0, 0, 0) ∧
    exceptPix (resize_and_crop (gradImg 1920 1080) 462 174) 0 0
        = some (0, 175, 0) ∧
    cover_unused_top 259 174 = 42 ∧
    ((cover_new_size 1920 1080 462 174).2 : ℤ) - 174 - 0 = 85 := by
  refine ⟨?_, ?_, by decide, ?_⟩
  · norm_num [create_store_asset, cover_new_size, ratio, pyInt, gradImg,
      Image.resizePIL, Image.resizeOk, Image.cropPIL, exceptPix, Int.toNat_ofNat]
  · norm_num [resize_and_crop, cover_new_size, ratio, pyInt, gradImg,
      Image.resizePIL, Image.resizeOk, Image.cropPIL, exceptPix, Int.toNat_ofNat]
    decide
  · have h2 : (cover_new_size 1920 1080 462 174).2 = 259 := by
      norm_num [cover_new_size, ratio, pyInt]
      decide
    rw [h2]
    decide

/-- Pixel-level form of the width-driven cover branch: inside the target
box the output pixel equals the scaled image's pixel at the same
coordinates (the crop box starts at the origin, not at the centering
offset). -/
theorem create_store_asset_cover_tall_pix {source : Image} {tw th : Nat}
    (hth : 0 < th) (hsh : 0 < source.height)
    (hle : ratio source.width source.height ≤ ratio tw th)
    (hsr : 0 < ratio source.width source.height)
    (htw : 0 < tw)
    (hnh : 0 < (cover_new_size source.width source.height tw th).2)
    (u v : Nat) (hu : u < tw)
    (hv : v < (cover_new_size source.width source.height tw th).2) :
    exceptPix (create_store_asset source (tw, th) .cover) u v =
      some ((source.resizeOk (tw : ℤ)
        ((cover_new_size source.width source.height tw th).2 : ℤ)).pix u v) := by
  rw [create_store_asset_cover_tall hth hsh hle hsr htw hnh]
  simp only [exceptPix, Image.cropPIL, Image.resizeOk, Int.toNat_natCast]
  rw [if_pos (⟨by omega, by omega⟩ :
    0 + u < tw ∧ 0 + v < (cover_new_size source.width source.height tw th).2)]
  simp [Nat.zero_add]

/-- C4 (amended): the width-constrained cover branch computes the scaled
height by truncation, `int(target_w / source_ratio)` = floor = integer
division, not round-to-nearest; concretely `fit(1920×1080, 462×174, Cover)`
takes that branch with scaled size 462×259 (not 260), computes the unused
top offset `(259 - 174) // 2 = 42`, and the output is rows 0..173 of the
462-wide scaled image (the crop box starts at `(0, 0)`). -/
theorem C4_width_branch_amended :
    (∀ sw sh tw th : Nat, 0 < sh → ratio sw sh ≤ ratio tw th →
      (cover_new_size sw sh tw th).2 = tw * sh / sw) ∧
    cover_new_size 1920 1080 462 174 = (462, 259) ∧
    cover_unused_top 259 174 = 42 ∧
    (∀ u v : Nat, u < 462 → v < 174 →
      exceptPix (create_store_asset (gradImg 1920 1080) (462, 174) .cover) u v =
        some (((gradImg 1920 1080).resizeOk 462 259).pix u v)) := by
  have h2 : (cover_new_size 1920 1080 462 174).2 = 259 := by
    norm_num [cover_new_size, ratio, pyInt]
    decide
  have h1 : (cover_new_size 1920 1080 462 174).1 = 462 := by
    norm_num [cover_new_size, ratio, pyInt]
  have hle : ratio (gradImg 1920 1080).width (gradImg 1920 1080).height ≤ ratio 462 174 := by
    norm_num [gradImg, ratio]
  have hsr : 0 < ratio (gradImg 1920 1080).width (gradImg 1920 1080).height :=
    ratio_pos (by decide) (by decide)
  have hg2 : (cover_new_size (gradImg 1920 1080).width (gradImg 1920 1080).height
      462 174).2 = 259 := by
    show (cover_new_size 1920 1080 462 174).2 = 259
    exact h2
  refine ⟨fun sw sh tw th hsh hle => cover_new_size_snd_eq_div hsh hle, ?_, by decide, ?_⟩
  · rw [← Prod.mk.eta (p := cover_new_size 1920 1080 462 174), h1, h2]
  · intro u v hu hv
    have hpix := @create_store_asset_cover_tall_pix (gradImg 1920 1080)
      462 174 (by decide) (by decide) hle hsr (by decide)
      (by rw [hg2]; decide) u v hu (by rw [hg2]; omega)
    rw [hpix, hg2]
    norm_num

/-- C4 counterexample: the claim's round-to-nearest formula gives a
scaled height of `round(462 / (1920/1080)) = round(259.875) = 260`, but
the code's `int()` truncation yields 259. -/
theorem C4_round_counterexample :
    (cover_new_size 1920 1080 462 174).2 = 259 ∧
    (round ((462 : ℚ) / ratio 1920 1080)).toNat = 260 ∧
    (cover_new_size 1920 1080 462 174).2 ≠ (round ((462 : ℚ) / ratio 1920 1080)).toNat := by
  have h1 : (cover_new_size 1920 1080 462 174).2 = 259 := by
    norm_num [cover_new_size, ratio, pyInt]
    decide
  have h2 : (round ((462 : ℚ) / ratio 1920 1080)).toNat = 260 := by
    rw [round_eq]
    norm_num [ratio]
    decide
  exact ⟨h1, h2, by rw [h1, h2]; decide⟩

/-- C7 (amended): the padding is `int(canvas_w * 0.02)` — truncation (=
floor) of the exact product, not round-to-nearest; concretely composing
6 images on a 3840×1240 canvas gives cols = 4, rows = 2, p = 76,
cell_w = (3840 - 76*5) // 4 = 865, and cell_h = int(865 * 9/16) = 486. -/
theorem C7_padding_amended :
    (∀ w : Nat, hero_padding w = ⌊(w : ℚ) * (2 / 100)⌋) ∧
    hero_cols 6 = 4 ∧ hero_rows 6 = 2 ∧ hero_padding 3840 = 76 ∧
    hero_cell_w 3840 6 = 865 ∧ hero_cell_h 3840 6 = 486 := by
  refine ⟨fun w => pyInt_of_nonneg (by positivity), by decide, by decide, ?_, ?_, ?_⟩
  · norm_num [hero_padding, pyInt]
  · norm_num [hero_cell_w, hero_padding, pyInt, hero_cols]
  · norm_num [hero_cell_h, hero_cell_w, hero_padding, pyInt, hero_cols]

/-- C7 counterexample: `round(3840 * 0.02) = round(76.8) = 77`, but the
code's padding is 76, and consequently the cell width is 865, not the
claimed 864. -/
theorem C7_round_padding_counterexample :
    hero_padding 3840 = 76 ∧ round ((3840 : ℚ) * (2 / 100)) = 77 ∧
    hero_padding 3840 ≠ round ((3840 : ℚ) * (2 / 100)) ∧
    hero_cell_w 3840 6 = 865 ∧ hero_cell_w 3840 6 ≠ 864 := by
  have h1 : hero_padding 3840 = 76 := by norm_num [hero_padding, pyInt]
  have h2 : round ((3840 : ℚ) * (2 / 100)) = 77 := by
    rw [round_eq]
    norm_num
  have h3 : hero_cell_w 3840 6 = 865 := by
    norm_num [hero_cell_w, hero_padding, pyInt, hero_cols]
  exact ⟨h1, h2, by rw [h1, h2]; decide, h3, by rw [h3]; decide⟩

/-- Ceiling-division characterisation of the row count, valid once the
column count is pinned down by a case split (so that all divisions are by
literals). -/
theorem hero_grid_ceil {n : Nat} (hn : 1 ≤ n) :
    hero_cols n * (hero_rows n - 1) < n ∧ n ≤ hero_cols n * hero_rows n := by
  rcases Nat.lt_or_ge n 4 with h4 | h4
  · interval_cases n <;> decide
  · have hc : hero_cols n = 4 := by
      unfold hero_cols
      omega
    unfold hero_rows
    rw [hc]
    omega

/-- C8 (amended): the grid shape is computed from the raw source count
`n = len(source_paths)` before the `[:12]` truncation: `cols = min(4, n)`
and `rows = ceil(n / cols)` (characterised by
`cols * (rows - 1) < n ≤ cols * rows`); in particular `rows = 1` for
`1 ≤ n ≤ 4`, and `cols = 4`, `rows = 2` for `n = 5`. -/
theorem C8_grid_shape_amended :
    (∀ n : Nat, 1 ≤ n →
      hero_cols n = min 4 n ∧
      hero_cols n * (hero_rows n - 1) < n ∧ n ≤ hero_cols n * hero_rows n) ∧
    (∀ n : Nat, 1 ≤ n → n ≤ 4 → hero_rows n = 1) ∧
    hero_cols 5 = 4 ∧ hero_rows 5 = 2 := by
  refine ⟨fun n hn => ⟨rfl, hero_grid_ceil hn⟩, fun n h1 h4 => ?_, by decide, by decide⟩
  interval_cases n <;> decide

/-- C8 counterexample: with 15 sources the code computes the row count
from the raw count (rows = ceil(15/4) = 4), not from the truncated count
of 12 tiles (which would give ceil(12/4) = 3). -/
theorem C8_raw_count_counterexample :
    hero_rows (List.replicate 15 (constImg 1 1 (0, 0, 0))).length = 4 ∧
    hero_rows 12 = 3 ∧
    hero_rows (List.replicate 15 (constImg 1 1 (0, 0, 0))).length ≠ hero_rows 12 := by
  rw [List.length_replicate]
  refine ⟨by decide, by decide, by decide⟩

/-- C4 witness: the concrete 462×174 instance, with the output pixel
probed at (10, 20). -/
theorem C4_width_branch_witness :
    cover_new_size 1920 1080 462 174 = (462, 259) ∧
    exceptPix (create_store_asset (gradImg 1920 1080) (462, 174) .cover) 10 20 =
      some (((gradImg 1920 1080).resizeOk 462 259).pix 10 20) := by
  exact ⟨C4_width_branch_amended.2.1,
    C4_width_branch_amended.2.2.2 10 20 (by decide) (by decide)⟩

/-- C8 witness: three sources give a single row of three columns, and
four sources still give a single row. -/
theorem C8_grid_shape_witness :
    hero_cols 3 = min 4 3 ∧ hero_cols 3 * (hero_rows 3 - 1) < 3 ∧
    3 ≤ hero_cols 3 * hero_rows 3 ∧ hero_rows 4 = 1 := by
  obtain ⟨h1, h2, _h3⟩ := C8_grid_shape_amended
  exact ⟨(h1 3 (by decide)).1, (h1 3 (by decide)).2.1, (h1 3 (by decide)).2.2,
    h2 4 (by decide) (by decide)⟩

theorem resizePIL_error_cases {img : Image} {w h : ℤ} {e : PyError}
    (he : img.resizePIL w h = .error e) : e = .valueError := by
  unfold Image.resizePIL at he
  split_ifs at he
  exact (Except.error.inj he).symm

theorem create_store_asset_target_h_zero (source : Image) (tw : Nat)
    (s : FitStrategy) :
    create_store_asset source (tw, 0) s = .error .zeroDivisionError := by
  simp [create_store_asset]

theorem create_store_asset_source_h_zero (source : Image) {tw th : Nat}
    (hth : th ≠ 0) (hsh : source.height = 0) (s : FitStrategy) :
    create_store_asset source (tw, th) s = .error .zeroDivisionError := by
  simp only [create_store_asset]
  rw [if_neg hth, if_pos hsh]

/-- The width-driven cover branch divides by the source ratio; a zero
source ratio (zero source width) raises `ZeroDivisionError` there. -/
theorem create_store_asset_cover_sr_zero {source : Image} {tw th : Nat}
    (hth : th ≠ 0) (hsh : source.height ≠ 0)
    (hle : ratio source.width source.height ≤ ratio tw th)
    (hsr0 : ratio source.width source.height = 0) :
    create_store_asset source (tw, th) .cover = .error .zeroDivisionError := by
  simp only [create_store_asset]
  rw [if_neg hth, if_neg hsh, if_neg (not_lt.mpr hle), if_pos hsr0]

/-- The height-driven cover branch fails in `resize` when the scaled
width truncates to zero (only possible with a zero target width). -/
theorem create_store_asset_cover_wide_err {source : Image} {tw th : Nat}
    (hth : th ≠ 0) (hsh : source.height ≠ 0)
    (hgt : ratio tw th < ratio source.width source.height)
    (hnw : (cover_new_size source.width source.height tw th).1 = 0) :
    create_store_asset source (tw, th) .cover = .error .valueError := by
  simp only [create_store_asset]
  rw [if_neg hth, if_neg hsh, if_pos hgt, resizePIL_err source (Or.inl (by exact_mod_cast hnw.le))]

/-- Every call of the transform either returns an image or raises
`ZeroDivisionError` (ratio divisions) or `ValueError` (degenerate
resize): no other outcome, and in particular none of the specification's
abstract error names. -/
theorem create_store_asset_cases (source : Image) (tw th : Nat) (s : FitStrategy) :
    (∃ img, create_store_asset source (tw, th) s = .ok img) ∨
    create_store_asset source (tw, th) s = .error .zeroDivisionError ∨
    create_store_asset source (tw, th) s = .error .valueError := by
  by_cases hth : th = 0
  · subst hth
    exact Or.inr (Or.inl (create_store_asset_target_h_zero source tw s))
  by_cases hsh : source.height = 0
  · exact Or.inr (Or.inl (create_store_asset_source_h_zero source hth hsh s))
  have hth' : 0 < th := Nat.pos_of_ne_zero hth
  have hsh' : 0 < source.height := Nat.pos_of_ne_zero hsh
  rcases s with _ | _
  · rcases lt_or_le (ratio tw th) (ratio source.width source.height) with hgt | hle
    · by_cases hnw : (cover_new_size source.width source.height tw th).1 = 0
      · exact Or.inr (Or.inr (create_store_asset_cover_wide_err hth hsh hgt hnw))
      · exact Or.inl ⟨_, create_store_asset_cover_wide hth' hsh' hgt
          (Nat.pos_of_ne_zero hnw)⟩
    · by_cases hsr0 : ratio source.width source.height = 0
      · exact Or.inr (Or.inl (create_store_asset_cover_sr_zero hth hsh hle hsr0))
      · have hsr : 0 < ratio source.width source.height :=
          lt_of_le_of_ne (ratio_nonneg _ _) (Ne.symm hsr0)
        have htr : 0 < ratio tw th := lt_of_lt_of_le hsr hle
        have htw : 0 < tw := (pos_of_ratio_pos htr).1
        have hnh : 0 < (cover_new_size source.width source.height tw th).2 :=
          lt_of_lt_of_le hth' (cover_new_size_snd_ge hth' hsr hle)
        exact Or.inl ⟨_, create_store_asset_cover_tall hth' hsh' hle hsr htw hnh⟩
  · by_cases hz : (contain_new_size source.width source.height tw th).1 = 0 ∨
        (contain_new_size source.width source.height tw th).2 = 0
    · exact Or.inr (Or.inr (create_store_asset_contain_err hth' hsh' hz))
    · push_neg at hz
      exact Or.inl ⟨_, create_store_asset_contain hth' hsh'
        (Nat.pos_of_ne_zero hz.1) (Nat.pos_of_ne_zero hz.2)⟩

/-- Pasting reads the source inside the pasted region (nonnegative
offsets, coordinates written as offset + local position). -/
theorem pastePIL_pix_in (canvas src : Image) {px py : ℤ} (hpx : 0 ≤ px) (hpy : 0 ≤ py)
    {u v : Nat} (hu : u < src.width) (hv : v < src.height) :
    (canvas.pastePIL src px py).pix (px.toNat + u) (py.toNat + v) = src.pix u v := by
  have hx : ((px.toNat + u : Nat) : ℤ) = px + u := by
    push_cast [Int.toNat_of_nonneg hpx]
    ring
  have hy : ((py.toNat + v : Nat) : ℤ) = py + v := by
    push_cast [Int.toNat_of_nonneg hpy]
    ring
  simp only [Image.pastePIL, hx, hy]
  rw [if_pos]
  · congr 1
    · omega
    · omega
  · refine ⟨by omega, by omega, by omega, by omega⟩

/-- Pasting leaves the canvas unchanged outside the pasted region. -/
theorem pastePIL_pix_out (canvas src : Image) {px py : ℤ} {x y : Nat}
    (h : ¬(px ≤ (x : ℤ) ∧ (x : ℤ) < px + src.width ∧
      py ≤ (y : ℤ) ∧ (y : ℤ) < py + src.height)) :
    (canvas.pastePIL src px py).pix x y = canvas.pix x y := by
  simp only [Image.pastePIL]
  rw [if_neg h]

theorem contain_offset_wide {sw sh tw th : Nat}
    (hgt : ratio tw th < ratio sw sh) :
    contain_offset sw sh tw th =
      (0, ((th : ℤ) - ((contain_new_size sw sh tw th).2 : ℤ)) / 2) := by
  unfold contain_offset
  rw [if_pos hgt]

theorem contain_offset_tall {sw sh tw th : Nat}
    (hle : ratio sw sh ≤ ratio tw th) :
    contain_offset sw sh tw th =
      (((tw : ℤ) - ((contain_new_size sw sh tw th).1 : ℤ)) / 2, 0) := by
  unfold contain_offset
  rw [if_neg (not_lt.mpr hle)]

/-- The contain offsets are nonnegative and keep the whole pasted region
inside the target box. -/
theorem contain_offset_bounds {source : Image} {tw th : Nat}
    (htw : 0 < tw) (hth : 0 < th) :
    0 ≤ (contain_offset source.width source.height tw th).1 ∧
    (contain_offset source.width source.height tw th).1 +
      ((contain_new_size source.width source.height tw th).1 : ℤ) ≤ (tw : ℤ) ∧
    0 ≤ (contain_offset source.width source.height tw th).2 ∧
    (contain_offset source.width source.height tw th).2 +
      ((contain_new_size source.width source.height tw th).2 : ℤ) ≤ (th : ℤ) := by
  rcases lt_or_le (ratio tw th) (ratio source.width source.height) with hgt | hle
  · rw [contain_offset_wide hgt, contain_new_size_wide_fst hgt]
    have hlt := contain_new_size_wide_snd_lt htw hth hgt
    have hlt' : ((contain_new_size source.width source.height tw th).2 : ℤ) < (th : ℤ) := by
      exact_mod_cast hlt
    refine ⟨le_refl 0, by omega, by omega, by omega⟩
  · rw [contain_offset_tall hle, contain_new_size_tall_snd hle]
    have hl := contain_new_size_tall_fst_le hth hle
    have hl' : ((contain_new_size source.width source.height tw th).1 : ℤ) ≤ (tw : ℤ) := by
      exact_mod_cast hl
    refine ⟨by omega, by omega, le_refl 0, by omega⟩

/-- C5 (amended): when the computed scaled size is positive, Contain
never crops: the result is the target-sized black canvas with the whole
scaled source visible at the contain offset, which is 0 on the axis
whose scaled dimension equals the target and the centered integer
division `(target - scaled) // 2` on the other axis, and the background
fill shows everywhere outside the pasted region.  (In the degenerate
zero-scaled-dimension case the call instead raises `ValueError`, the
restriction the counterexample forces.) -/
theorem C5_contain_centered_no_crop {source : Image} {tw th : Nat}
    (_hsw : 0 < source.width) (hsh : 0 < source.height) (htw : 0 < tw) (hth : 0 < th)
    (hnw : 0 < (contain_new_size source.width source.height tw th).1)
    (hnh : 0 < (contain_new_size source.width source.height tw th).2) :
    exceptSize (create_store_asset source (tw, th) .contain) = some (tw, th) ∧
    (ratio tw th < ratio source.width source.height →
      (contain_offset source.width source.height tw th).1 = 0 ∧
      (contain_new_size source.width source.height tw th).1 = tw ∧
      (contain_offset source.width source.height tw th).2 =
        ((th : ℤ) - ((contain_new_size source.width source.height tw th).2 : ℤ)) / 2) ∧
    (ratio source.width source.height ≤ ratio tw th →
      (contain_offset source.width source.height tw th).2 = 0 ∧
      (contain_new_size source.width source.height tw th).2 = th ∧
      (contain_offset source.width source.height tw th).1 =
        ((tw : ℤ) - ((contain_new_size source.width source.height tw th).1 : ℤ)) / 2) ∧
    (0 ≤ (contain_offset source.width source.height tw th).1 ∧
      (contain_offset source.width source.height tw th).1 +
        ((contain_new_size source.width source.height tw th).1 : ℤ) ≤ (tw : ℤ) ∧
      0 ≤ (contain_offset source.width source.height tw th).2 ∧
      (contain_offset source.width source.height tw th).2 +
        ((contain_new_size source.width source.height tw th).2 : ℤ) ≤ (th : ℤ)) ∧
    (∀ u v : Nat, u < (contain_new_size source.width source.height tw th).1 →
      v < (contain_new_size source.width source.height tw th).2 →
      exceptPix (create_store_asset source (tw, th) .contain)
          ((contain_offset source.width source.height tw th).1.toNat + u)
          ((contain_offset source.width source.height tw th).2.toNat + v) =
        some ((source.resizeOk
          ((contain_new_size source.width source.height tw th).1 : ℤ)
          ((contain_new_size source.width source.height tw th).2 : ℤ)).pix u v)) ∧
    (∀ x y : Nat,
      ¬((contain_offset source.width source.height tw th).1 ≤ (x : ℤ) ∧
        (x : ℤ) < (contain_offset source.width source.height tw th).1 +
          ((contain_new_size source.width source.height tw th).1 : ℤ) ∧
        (contain_offset source.width source.height tw th).2 ≤ (y : ℤ) ∧
        (y : ℤ) < (contain_offset source.width source.height tw th).2 +
          ((contain_new_size source.width source.height tw th).2 : ℤ)) →
      exceptPix (create_store_asset source (tw, th) .contain) x y = some (0, 0, 0)) := by
  have hbounds := @contain_offset_bounds source tw th htw hth
  have heval := create_store_asset_contain hth hsh hnw hnh
  refine ⟨create_store_asset_contain_size hsh hth hnw hnh, ?_, ?_, hbounds, ?_, ?_⟩
  · intro hgt
    rw [contain_offset_wide hgt, contain_new_size_wide_fst hgt]
    exact ⟨rfl, rfl, rfl⟩
  · intro hle
    rw [contain_offset_tall hle, contain_new_size_tall_snd hle]
    exact ⟨rfl, rfl, rfl⟩
  · intro u v hu hv
    rw [heval]
    simp only [exceptPix]
    congr 1
    apply pastePIL_pix_in _ _ hbounds.1 hbounds.2.2.1
    · simpa [Image.resizeOk] using hu
    · simpa [Image.resizeOk] using hv
  · intro x y hnot
    rw [heval]
    simp only [exceptPix]
    rw [pastePIL_pix_out]
    · simp [Image.newPIL]
    · simpa [Image.resizeOk, Int.toNat_of_nonneg (Nat.cast_nonneg _)] using hnot

/-- C5 witness: a 1920×1080 source contained into the 920×430 header
target scales to 764×430 and is pasted at offset (78, 0); the probe
checks the size, the offset, a pasted pixel and a left letterbox pixel. -/
theorem C5_contain_centered_witness :
    exceptSize (create_store_asset (constImg 1920 1080 (7, 7, 7)) (920, 430) .contain)
        = some (920, 430) ∧
    contain_offset 1920 1080 920 430 = (78, 0) ∧
    contain_new_size 1920 1080 920 430 = (764, 430) ∧
    exceptPix (create_store_asset (constImg 1920 1080 (7, 7, 7)) (920, 430) .contain)
        (78 + 5) (0 + 6) =
      some (((constImg 1920 1080 (7, 7, 7)).resizeOk 764 430).pix 5 6) ∧
    exceptPix (create_store_asset (constImg 1920 1080 (7, 7, 7)) (920, 430) .contain)
        0 0 = some (0, 0, 0) := by
  have hle : ratio (constImg 1920 1080 (7, 7, 7)).width
      (constImg 1920 1080 (7, 7, 7)).height ≤ ratio 920 430 := by
    norm_num [constImg, ratio]
  have hsz : contain_new_size 1920 1080 920 430 = (764, 430) := by
    have h1 : (contain_new_size 1920 1080 920 430).1 = 764 := by
      norm_num [contain_new_size, ratio, pyInt]
      decide
    have h2 : (contain_new_size 1920 1080 920 430).2 = 430 := by
      norm_num [contain_new_size, ratio, pyInt]
    rw [← Prod.mk.eta (p := contain_new_size 1920 1080 920 430), h1, h2]
  have hoff : contain_offset 1920 1080 920 430 = (78, 0) := by
    have := @contain_offset_tall 1920 1080 920 430 (by norm_num [ratio])
    rw [this, hsz]
    norm_num
  have h := @C5_contain_centered_no_crop (constImg 1920 1080 (7, 7, 7))
    920 430 (by decide) (by decide) (by decide) (by decide)
    (by show 0 < (contain_new_size 1920 1080 920 430).1; rw [hsz]; decide)
    (by show 0 < (contain_new_size 1920 1080 920 430).2; rw [hsz]; decide)
  have hszc : contain_new_size (constImg 1920 1080 (7, 7, 7)).width
      (constImg 1920 1080 (7, 7, 7)).height 920 430 = (764, 430) := hsz
  have hoffc : contain_offset (constImg 1920 1080 (7, 7, 7)).width
      (constImg 1920 1080 (7, 7, 7)).height 920 430 = (78, 0) := hoff
  refine ⟨h.1, hoff, hsz, ?_, ?_⟩
  · have hp := h.2.2.2.2.1 5 6 (by rw [hszc]; decide) (by rw [hszc]; decide)
    rw [hszc, hoffc] at hp
    simpa using hp
  · have hp := h.2.2.2.2.2 0 0 (by rw [hszc, hoffc]; decide)
    exact hp

/-- C5 counterexample: a 1×1000 source with a 2×2 target under Contain
computes scaled width `int(2 * 0.001) = 0` and raises `ValueError`: no
output exists, so nothing is pasted, refuting the universal claim. -/
theorem C5_contain_degenerate_counterexample :
    create_store_asset (constImg 1 1000 (0, 0, 0)) (2, 2) .contain
        = .error .valueError ∧
    exceptPix (create_store_asset (constImg 1 1000 (0, 0, 0)) (2, 2) .contain) 0 0
        = none := by
  have h : create_store_asset (constImg 1 1000 (0, 0, 0)) (2, 2) .contain
      = .error .valueError := by
    apply create_store_asset_contain_err (by decide) (by decide)
    left
    norm_num [contain_new_size, constImg, ratio, pyInt]
  exact ⟨h, by rw [h]; rfl⟩

theorem hero_padding_nonneg (w : Nat) : 0 ≤ hero_padding w :=
  pyInt_nonneg (by positivity)

theorem hero_cols_pos {n : Nat} (hn : 1 ≤ n) : 1 ≤ hero_cols n := by
  unfold hero_cols
  omega

/-- Floor-division bound for the tile width: `cols` tiles of width
`cell_w` fit in the padded span. -/
theorem hero_cell_w_mul_le {w n : Nat} (hn : 1 ≤ n) :
    (hero_cols n : ℤ) * hero_cell_w w n ≤
      (w : ℤ) - hero_padding w * ((hero_cols n : ℤ) + 1) := by
  unfold hero_cell_w
  have hb : (0 : ℤ) < (hero_cols n : ℤ) := by
    have := hero_cols_pos hn
    exact_mod_cast this
  have h1 := Int.ediv_add_emod ((w : ℤ) - hero_padding w * ((hero_cols n : ℤ) + 1))
    (hero_cols n : ℤ)
  have h2 := Int.emod_nonneg ((w : ℤ) - hero_padding w * ((hero_cols n : ℤ) + 1))
    (show (hero_cols n : ℤ) ≠ 0 by omega)
  omega

theorem hero_tile_x_nonneg {w n i : Nat} (hcw : 0 < hero_cell_w w n) :
    0 ≤ hero_tile_x w n i := by
  have hp := hero_padding_nonneg w
  unfold hero_tile_x hero_gap
  have hmul : 0 ≤ ((i % hero_cols n : Nat) : ℤ) * (hero_cell_w w n + hero_padding w) :=
    mul_nonneg (by positivity) (by omega)
  omega

/-- Helper for C10 and C9: every tile's horizontal extent stays inside
the canvas. -/
theorem hero_tile_x_bounds {w n i : Nat} (hn : 1 ≤ n) (hcw : 1 ≤ hero_cell_w w n) :
    0 ≤ hero_tile_x w n i ∧ hero_tile_x w n i + hero_cell_w w n ≤ (w : ℤ) := by
  have hp := hero_padding_nonneg w
  have hc : 1 ≤ hero_cols n := hero_cols_pos hn
  have hfit := hero_cell_w_mul_le (w := w) hn
  have hcol : ((i % hero_cols n : Nat) : ℤ) ≤ (hero_cols n : ℤ) - 1 := by
    have := Nat.mod_lt i (show 0 < hero_cols n by omega)
    omega
  refine ⟨hero_tile_x_nonneg (by omega), ?_⟩
  unfold hero_tile_x hero_gap
  have hmono : ((i % hero_cols n : Nat) : ℤ) * (hero_cell_w w n + hero_padding w) ≤
      ((hero_cols n : ℤ) - 1) * (hero_cell_w w n + hero_padding w) :=
    mul_le_mul_of_nonneg_right hcol (by omega)
  have hring : ((hero_cols n : ℤ) - 1) * (hero_cell_w w n + hero_padding w) =
      (hero_cols n : ℤ) * hero_cell_w w n + (hero_cols n : ℤ) * hero_padding w -
        hero_cell_w w n - hero_padding w := by ring
  have hpad : (hero_cols n : ℤ) * hero_padding w ≤
      hero_padding w * ((hero_cols n : ℤ) + 1) - hero_padding w := by
    have : (hero_cols n : ℤ) * hero_padding w =
        hero_padding w * ((hero_cols n : ℤ) + 1) - hero_padding w := by ring
    omega
  omega

/-- One step of the paste loop on a positive cell size. -/
theorem paste_tiles_cons {tw th n : Nat} (canvas img : Image) (rest : List Image)
    (i : Nat) (hcw : 0 < hero_cell_w tw n) (hch : 0 < hero_cell_h tw n) :
    paste_tiles tw th n canvas (img :: rest) i =
      paste_tiles tw th n
        (canvas.pastePIL (img.resizeOk (hero_cell_w tw n) (hero_cell_h tw n))
          (hero_tile_x tw n i) (hero_tile_y tw th n i)) rest (i + 1) := by
  have hres := resizePIL_ok img hcw hch
  show (match img.resizePIL (hero_cell_w tw n) (hero_cell_h tw n) with
    | Except.error e => Except.error e
    | Except.ok resized => paste_tiles tw th n
        (canvas.pastePIL resized (hero_tile_x tw n i) (hero_tile_y tw th n i))
        rest (i + 1)) = _
  rw [hres]

/-- The paste loop succeeds on positive cell dimensions and preserves the
canvas size. -/
theorem paste_tiles_ok {tw th n : Nat} (hcw : 0 < hero_cell_w tw n)
    (hch : 0 < hero_cell_h tw n) :
    ∀ (tiles : List Image) (canvas : Image) (i : Nat),
      ∃ out, paste_tiles tw th n canvas tiles i = .ok out ∧
        out.width = canvas.width ∧ out.height = canvas.height := by
  intro tiles
  induction tiles with
  | nil =>
    intro canvas i
    exact ⟨canvas, rfl, rfl, rfl⟩
  | cons img rest ih =>
    intro canvas i
    obtain ⟨out, h, hw, hh⟩ := ih (canvas.pastePIL
      (img.resizeOk (hero_cell_w tw n) (hero_cell_h tw n))
      (hero_tile_x tw n i) (hero_tile_y tw th n i)) (i + 1)
    refine ⟨out, ?_, hw, hh⟩
    rw [paste_tiles_cons canvas img rest i hcw hch]
    exact h

/-- The composer returns a full canvas of exactly the requested size for
nonempty sources with positive computed cell dimensions. -/
theorem create_hero_with_logo_size {sources : List Image} {tw th : Nat}
    (hne : sources ≠ [])
    (hcw : 0 < hero_cell_w tw sources.length)
    (hch : 0 < hero_cell_h tw sources.length) :
    exceptSize (create_hero_with_logo sources (tw, th)) = some (tw, th) := by
  have hn : 1 ≤ sources.length := List.length_pos.mpr hne
  have hc : ¬hero_cols sources.length = 0 := by
    have := hero_cols_pos hn
    omega
  obtain ⟨out, h, hw, hh⟩ := paste_tiles_ok hcw hch (sources.take 12)
    (Image.newPIL tw th (15, 15, 25)) 0
  simp only [create_hero_with_logo]
  rw [if_neg hc, h]
  simp only [exceptSize, Image.drawRect]
  rw [hw, hh]
  rfl

/-- C6 (amended): compose raises `ZeroDivisionError` on an empty source
sequence (there is no `EmptyInput` exception in the code: `cols = min(4, 0)
= 0` and the `rows` computation divides by it), and for every non-empty
source sequence whose computed cell dimensions are positive it returns a
full canvas image of exactly the requested size. -/
theorem C6_compose_amended (sources : List Image) (tw th : Nat) :
    (sources = [] → create_hero_with_logo sources (tw, th) = .error .zeroDivisionError) ∧
    (Except.error PyError.zeroDivisionError ≠
      (Except.error PyError.emptyInput : Except PyError Image)) ∧
    (sources ≠ [] → 0 < hero_cell_w tw sources.length →
      0 < hero_cell_h tw sources.length →
      exceptSize (create_hero_with_logo sources (tw, th)) = some (tw, th)) := by
  refine ⟨?_, by simp, fun hne hcw hch => create_hero_with_logo_size hne hcw hch⟩
  intro he
  subst he
  simp [create_hero_with_logo, hero_cols]

/-- C6 witness: six sources on the 3840×1240 library-hero canvas give a
3840×1240 output; the empty call raises `ZeroDivisionError`. -/
theorem C6_compose_witness :
    exceptSize (create_hero_with_logo
        (List.replicate 6 (constImg 1920 1080 (3, 3, 3))) (3840, 1240))
      = some (3840, 1240) ∧
    create_hero_with_logo ([] : List Image) (3840, 1240)
      = .error .zeroDivisionError := by
  constructor
  · apply (C6_compose_amended _ 3840 1240).2.2
    · simp
    · rw [List.length_replicate]
      have : hero_cell_w 3840 6 = 865 := by
        norm_num [hero_cell_w, hero_padding, pyInt, hero_cols]
      omega
    · rw [List.length_replicate]
      have : hero_cell_h 3840 6 = 486 := by
        norm_num [hero_cell_h, hero_cell_w, hero_padding, pyInt, hero_cols]
      omega
  · exact (C6_compose_amended [] 3840 1240).1 rfl

/-- C6 counterexample: the empty composition raises `ZeroDivisionError`,
which is not the claimed `EmptyInput`. -/
theorem C6_empty_input_counterexample :
    create_hero_with_logo ([] : List Image) (3840, 1240)
        = .error .zeroDivisionError ∧
    (Except.error PyError.zeroDivisionError : Except PyError Image)
        ≠ .error .emptyInput := by
  constructor
  · simp [create_hero_with_logo, hero_cols]
  · simp

/-- C10: for a non-empty source list and any tile index among the pasted
tiles, when the computed cell width is positive the tile's horizontal
extent lies fully inside the canvas: `0 ≤ x` and `x + cell_w ≤ canvas
width`; vertical overflow is possible by contrast — on a 3840×100 canvas
with 12 tiles the vertical start is negative. -/
theorem C10_tiles_inside_horizontally (sources : List Image) (tw i : Nat)
    (hne : sources ≠ []) (_hi : i < min 12 sources.length)
    (hcw : 1 ≤ hero_cell_w tw sources.length) :
    (0 ≤ hero_tile_x tw sources.length i ∧
      hero_tile_x tw sources.length i + hero_cell_w tw sources.length ≤ (tw : ℤ)) ∧
    hero_start_y 3840 100 12 < 0 := by
  have hn : 1 ≤ sources.length := List.length_pos.mpr hne
  refine ⟨hero_tile_x_bounds hn hcw, ?_⟩
  norm_num [hero_start_y, hero_total_h, hero_cell_h, hero_cell_w, hero_padding,
    pyInt, hero_cols, hero_rows, hero_gap]

/-- C10 witness: tile 5 of a 6-tile composition on the 3840-wide canvas
sits at x = 1017 with cell width 865, inside [0, 3840]. -/
theorem C10_tiles_inside_witness :
    (0 ≤ hero_tile_x 3840 (List.replicate 6 (constImg 1 1 (0, 0, 0))).length 5 ∧
      hero_tile_x 3840 (List.replicate 6 (constImg 1 1 (0, 0, 0))).length 5 +
        hero_cell_w 3840 (List.replicate 6 (constImg 1 1 (0, 0, 0))).length ≤ 3840) ∧
    hero_start_y 3840 100 12 < 0 := by
  have h := C10_tiles_inside_horizontally (List.replicate 6 (constImg 1 1 (0, 0, 0)))
    3840 5 (by simp) (by simp) ?_
  · exact h
  · rw [List.length_replicate]
    have : hero_cell_w 3840 6 = 865 := by
      norm_num [hero_cell_w, hero_padding, pyInt, hero_cols]
    omega

/-- Tiles in different columns are horizontally separated by at least a
cell width. -/
theorem hero_tile_x_sep {w n i j : Nat} (hcw : 1 ≤ hero_cell_w w n)
    (hlt : i % hero_cols n < j % hero_cols n) :
    hero_tile_x w n i + hero_cell_w w n ≤ hero_tile_x w n j := by
  have hp := hero_padding_nonneg w
  unfold hero_tile_x hero_gap
  have hd : (1 : ℤ) ≤ ((j % hero_cols n : Nat) : ℤ) - ((i % hero_cols n : Nat) : ℤ) := by
    omega
  have hmul : (1 : ℤ) * (hero_cell_w w n + hero_padding w) ≤
      (((j % hero_cols n : Nat) : ℤ) - ((i % hero_cols n : Nat) : ℤ)) *
        (hero_cell_w w n + hero_padding w) :=
    mul_le_mul_of_nonneg_right hd (by omega)
  have hring : (((j % hero_cols n : Nat) : ℤ) - ((i % hero_cols n : Nat) : ℤ)) *
      (hero_cell_w w n + hero_padding w) =
      ((j % hero_cols n : Nat) : ℤ) * (hero_cell_w w n + hero_padding w) -
      ((i % hero_cols n : Nat) : ℤ) * (hero_cell_w w n + hero_padding w) := by
    ring
  omega

/-- Tiles in different rows are vertically separated by at least a cell
height. -/
theorem hero_tile_y_sep {w h n i j : Nat} (hch : 1 ≤ hero_cell_h w n)
    (hlt : i / hero_cols n < j / hero_cols n) :
    hero_tile_y w h n i + hero_cell_h w n ≤ hero_tile_y w h n j := by
  have hp := hero_padding_nonneg w
  unfold hero_tile_y hero_gap
  have hd : (1 : ℤ) ≤ ((j / hero_cols n : Nat) : ℤ) - ((i / hero_cols n : Nat) : ℤ) := by
    omega
  have hmul : (1 : ℤ) * (hero_cell_h w n + hero_padding w) ≤
      (((j / hero_cols n : Nat) : ℤ) - ((i / hero_cols n : Nat) : ℤ)) *
        (hero_cell_h w n + hero_padding w) :=
    mul_le_mul_of_nonneg_right hd (by omega)
  have hring : (((j / hero_cols n : Nat) : ℤ) - ((i / hero_cols n : Nat) : ℤ)) *
      (hero_cell_h w n + hero_padding w) =
      ((j / hero_cols n : Nat) : ℤ) * (hero_cell_h w n + hero_padding w) -
      ((i / hero_cols n : Nat) : ℤ) * (hero_cell_h w n + hero_padding w) := by
    ring
  omega

/-- Distinct tile indices occupy disjoint regions: a pixel inside tile
`i`'s region is outside tile `j`'s. -/
theorem hero_region_disjoint {tw th n : Nat} (hcw : 1 ≤ hero_cell_w tw n)
    (hch : 1 ≤ hero_cell_h tw n) {i j : Nat} (hij : i ≠ j) {X Y : ℤ}
    (hxi : hero_tile_x tw n i ≤ X) (hxi' : X < hero_tile_x tw n i + hero_cell_w tw n)
    (hyi : hero_tile_y tw th n i ≤ Y)
    (hyi' : Y < hero_tile_y tw th n i + hero_cell_h tw n) :
    ¬(hero_tile_x tw n j ≤ X ∧ X < hero_tile_x tw n j + hero_cell_w tw n ∧
      hero_tile_y tw th n j ≤ Y ∧ Y < hero_tile_y tw th n j + hero_cell_h tw n) := by
  rintro ⟨hxj, hxj', hyj, hyj'⟩
  rcases Nat.lt_trichotomy (i % hero_cols n) (j % hero_cols n) with hc | hc | hc
  · have := hero_tile_x_sep hcw hc
    omega
  · rcases Nat.eq_zero_or_pos (hero_cols n) with h0 | h0
    · rw [h0] at hc
      simp only [Nat.mod_zero] at hc
      exact hij hc
    · have hrow : i / hero_cols n ≠ j / hero_cols n := by
        intro hdiv
        apply hij
        have h1 := Nat.div_add_mod i (hero_cols n)
        have h2 := Nat.div_add_mod j (hero_cols n)
        rw [hdiv, hc] at h1
        omega
      rcases Nat.lt_or_ge (i / hero_cols n) (j / hero_cols n) with hr | hr
      · have := hero_tile_y_sep (h := th) hch hr
        omega
      · have hr' : j / hero_cols n < i / hero_cols n := by omega
        have := hero_tile_y_sep (h := th) hch hr'
        omega
  · have := hero_tile_x_sep hcw hc
    omega

/-- A pixel outside every pending tile region is untouched by the paste
loop. -/
theorem paste_tiles_pix_away {tw th n : Nat} (hcw : 0 < hero_cell_w tw n)
    (hch : 0 < hero_cell_h tw n) {X Y : Nat} :
    ∀ (tiles : List Image) (canvas : Image) (i0 : Nat) {out : Image},
      paste_tiles tw th n canvas tiles i0 = .ok out →
      (∀ k, k < tiles.length →
        ¬(hero_tile_x tw n (i0 + k) ≤ (X : ℤ) ∧
          (X : ℤ) < hero_tile_x tw n (i0 + k) + hero_cell_w tw n ∧
          hero_tile_y tw th n (i0 + k) ≤ (Y : ℤ) ∧
          (Y : ℤ) < hero_tile_y tw th n (i0 + k) + hero_cell_h tw n)) →
      out.pix X Y = canvas.pix X Y := by
  intro tiles
  induction tiles with
  | nil =>
    intro canvas i0 out h _
    cases h
    rfl
  | cons img rest ih =>
    intro canvas i0 out h hnone
    rw [paste_tiles_cons canvas img rest i0 hcw hch] at h
    have hmain := ih _ (i0 + 1) h (fun k hk => by
      have h' := hnone (k + 1) (by simpa using Nat.succ_lt_succ hk)
      have he : i0 + (k + 1) = i0 + 1 + k := by omega
      rw [he] at h'
      exact h')
    rw [hmain]
    apply pastePIL_pix_out
    have h0 := hnone 0 (by simp)
    rw [Nat.add_zero] at h0
    simpa [Image.resizeOk, Int.toNat_of_nonneg hcw.le, Int.toNat_of_nonneg hch.le]
      using h0

/-- Inside the canvas, the pixel at local position `(u, v)` of tile `k`
shows the `k`-th pending tile, force-resized to the cell size: the paste
loop places tile `k` at column `(i0+k) % cols`, row `(i0+k) / cols`, and
no other tile overwrites it. -/
theorem paste_tiles_pix_get {tw th n : Nat} (hcw : 0 < hero_cell_w tw n)
    (hch : 0 < hero_cell_h tw n) :
    ∀ (tiles : List Image) (canvas : Image) (i0 : Nat) {out : Image}
      (k : Nat) (hk : k < tiles.length) (u v : Nat),
      paste_tiles tw th n canvas tiles i0 = .ok out →
      (u : ℤ) < hero_cell_w tw n → (v : ℤ) < hero_cell_h tw n →
      0 ≤ hero_tile_y tw th n (i0 + k) →
      out.pix (hero_tile_x tw n (i0 + k) + (u : ℤ)).toNat
          (hero_tile_y tw th n (i0 + k) + (v : ℤ)).toNat =
        ((tiles.get ⟨k, hk⟩).resizeOk (hero_cell_w tw n) (hero_cell_h tw n)).pix u v := by
  intro tiles
  induction tiles with
  | nil =>
    intro canvas i0 out k hk
    exact absurd hk (by simp)
  | cons img rest ih =>
    intro canvas i0 out k hk u v h hu hv hy
    rw [paste_tiles_cons canvas img rest i0 hcw hch] at h
    rcases k with _ | k'
    · rw [Nat.add_zero] at hy ⊢
      have hx0 : 0 ≤ hero_tile_x tw n i0 := hero_tile_x_nonneg hcw
      have hxe : (hero_tile_x tw n i0 + (u : ℤ)).toNat =
          (hero_tile_x tw n i0).toNat + u := by omega
      have hye : (hero_tile_y tw th n i0 + (v : ℤ)).toNat =
          (hero_tile_y tw th n i0).toNat + v := by omega
      have hXc : (((hero_tile_x tw n i0).toNat + u : Nat) : ℤ) =
          hero_tile_x tw n i0 + (u : ℤ) := by omega
      have hYc : (((hero_tile_y tw th n i0).toNat + v : Nat) : ℤ) =
          hero_tile_y tw th n i0 + (v : ℤ) := by omega
      rw [hxe, hye]
      have haway := paste_tiles_pix_away (X := (hero_tile_x tw n i0).toNat + u)
        (Y := (hero_tile_y tw th n i0).toNat + v) hcw hch rest _ (i0 + 1) h (fun m hm => by
        rw [hXc, hYc]
        exact hero_region_disjoint hcw hch (show i0 ≠ i0 + 1 + m by omega)
          (by omega) (by omega) (by omega) (by omega))
      rw [haway]
      have hin := pastePIL_pix_in canvas
        (img.resizeOk (hero_cell_w tw n) (hero_cell_h tw n)) hx0 hy
        (u := u) (v := v)
        (by simpa [Image.resizeOk] using (by omega :
          u < (hero_cell_w tw n).toNat))
        (by simpa [Image.resizeOk] using (by omega :
          v < (hero_cell_h tw n).toNat))
      rw [hin]
      rfl
    · have he : i0 + (k' + 1) = i0 + 1 + k' := by omega
      rw [he] at hy ⊢
      have hk' : k' < rest.length := by
        simpa using Nat.lt_of_succ_lt_succ hk
      have := ih _ (i0 + 1) k' hk' u v h hu hv hy
      rw [this]
      simp

/-- Pixels strictly below the title rectangle are unchanged by the
rectangle draw. -/
theorem drawRect_pix_away (canvas : Image) {x0 y0 x1 y1 : ℤ} (c : Color) {x y : Nat}
    (h : ¬(x0 ≤ (x : ℤ) ∧ (x : ℤ) ≤ x1 ∧ y0 ≤ (y : ℤ) ∧ (y : ℤ) ≤ y1)) :
    (canvas.drawRect x0 y0 x1 y1 c).pix x y = canvas.pix x y := by
  simp only [Image.drawRect]
  rw [if_neg h]

/-- C9: compose truncates to the first 12 sources and preserves their
order: the output depends on the sources only through the raw count and
the first 12 entries, and inside the canvas the tile of 0-based index
`k` — placed at column `k % cols` and row `k / cols` (positions
`hero_tile_x` / `hero_tile_y`) — shows exactly source `k`, force-resized
to the cell size. -/
theorem C9_truncation_and_order (tw th : Nat) :
    (∀ s1 s2 : List Image, s1.take 12 = s2.take 12 → s1.length = s2.length →
      create_hero_with_logo s1 (tw, th) = create_hero_with_logo s2 (tw, th)) ∧
    (∀ (sources : List Image) (k : Nat), k < 12 → ∀ hk : k < sources.length,
      ∀ u v : Nat,
      0 < hero_cell_w tw sources.length →
      0 < hero_cell_h tw sources.length →
      (u : ℤ) < hero_cell_w tw sources.length →
      (v : ℤ) < hero_cell_h tw sources.length →
      0 ≤ hero_start_y tw th sources.length →
      exceptPix (create_hero_with_logo sources (tw, th))
          (hero_tile_x tw sources.length k + (u : ℤ)).toNat
          (hero_tile_y tw th sources.length k + (v : ℤ)).toNat =
        some (((sources.get ⟨k, hk⟩).resizeOk (hero_cell_w tw sources.length)
          (hero_cell_h tw sources.length)).pix u v)) := by
  constructor
  · intro s1 s2 htake hlen
    simp only [create_hero_with_logo]
    rw [hlen, htake]
  · intro sources k hk12 hk u v hcw hch hu hv hsy
    have hn : 1 ≤ sources.length := by omega
    have hc : ¬hero_cols sources.length = 0 := by
      have := hero_cols_pos hn
      omega
    obtain ⟨out, hpt, hw, hh⟩ := paste_tiles_ok hcw hch (sources.take 12)
      (Image.newPIL tw th (15, 15, 25)) 0
    have hyk : hero_start_y tw th sources.length ≤
        hero_tile_y tw th sources.length k := by
      unfold hero_tile_y hero_gap
      have hmul : 0 ≤ ((k / hero_cols sources.length : Nat) : ℤ) *
          (hero_cell_h tw sources.length + hero_padding tw) :=
        mul_nonneg (by positivity) (by have := hero_padding_nonneg tw; omega)
      omega
    have hy0 : 0 ≤ hero_tile_y tw th sources.length k := le_trans hsy hyk
    have hk' : k < (sources.take 12).length := by
      simp only [List.length_take]
      omega
    have hget := paste_tiles_pix_get hcw hch (sources.take 12) _ 0 k hk' u v hpt hu hv
      (by rw [Nat.zero_add]; exact hy0)
    rw [Nat.zero_add] at hget
    have hgeteq : (sources.take 12).get ⟨k, hk'⟩ = sources.get ⟨k, hk⟩ := by
      simp [List.getElem_take]
    rw [hgeteq] at hget
    have hcast : (((hero_tile_y tw th sources.length k + (v : ℤ)).toNat : Nat) : ℤ) =
        hero_tile_y tw th sources.length k + (v : ℤ) := by omega
    simp only [create_hero_with_logo]
    rw [if_neg hc, hpt]
    simp only [exceptPix]
    rw [drawRect_pix_away]
    · rw [hget]
    · rintro ⟨_, _, _, h4⟩
      rw [hcast] at h4
      omega

/-- C9 witness: fifteen sources compose identically to twelve-plus-three
with the same first twelve, and in a six-source composition on the
3840×1240 canvas tile 1 shows the second source. -/
theorem C9_truncation_and_order_witness :
    create_hero_with_logo
        (List.replicate 15 (constImg 1920 1080 (1, 1, 1))) (3840, 1240) =
      create_hero_with_logo
        (List.replicate 12 (constImg 1920 1080 (1, 1, 1)) ++
          List.replicate 3 (constImg 1920 1080 (2, 2, 2))) (3840, 1240) ∧
    exceptPix (create_hero_with_logo
        [constImg 1920 1080 (1, 1, 1), constImg 1920 1080 (2, 2, 2),
          constImg 1920 1080 (3, 3, 3), constImg 1920 1080 (4, 4, 4),
          constImg 1920 1080 (5, 5, 5), constImg 1920 1080 (6, 6, 6)] (3840, 1240))
        (hero_tile_x 3840 6 1 + (0 : ℤ)).toNat
        (hero_tile_y 3840 1240 6 1 + (0 : ℤ)).toNat =
      some (((constImg 1920 1080 (2, 2, 2)).resizeOk (hero_cell_w 3840 6)
        (hero_cell_h 3840 6)).pix 0 0) := by
  have hcw : hero_cell_w 3840 6 = 865 := by
    norm_num [hero_cell_w, hero_padding, pyInt, hero_cols]
  have hch : hero_cell_h 3840 6 = 486 := by
    norm_num [hero_cell_h, hero_cell_w, hero_padding, pyInt, hero_cols]
  have hsy : hero_start_y 3840 1240 6 = 58 := by
    norm_num [hero_start_y, hero_total_h, hero_cell_h, hero_cell_w, hero_padding,
      pyInt, hero_cols, hero_rows, hero_gap]
  constructor
  · exact (C9_truncation_and_order 3840 1240).1 _ _ rfl (by simp)
  · have h := (C9_truncation_and_order 3840 1240).2
      [constImg 1920 1080 (1, 1, 1), constImg 1920 1080 (2, 2, 2),
        constImg 1920 1080 (3, 3, 3), constImg 1920 1080 (4, 4, 4),
        constImg 1920 1080 (5, 5, 5), constImg 1920 1080 (6, 6, 6)]
      1 (by omega) (by simp) 0 0
      (by show 0 < hero_cell_w 3840 6; rw [hcw]; omega)
      (by show 0 < hero_cell_h 3840 6; rw [hch]; omega)
      (by show (0 : ℤ) < hero_cell_w 3840 6; rw [hcw]; omega)
      (by show (0 : ℤ) < hero_cell_h 3840 6; rw [hch]; omega)
      (by show 0 ≤ hero_start_y 3840 1240 6; rw [hsy]; omega)
    simpa using h

/-- C3 (amended): the code defines no `InvalidDimension` exception and
never raises one — its only failures are `ZeroDivisionError`, raised
exactly by the zero-divisor ratio computations (target height 0, source
height 0, or zero source ratio in the width-driven cover branch), and
`ValueError`, raised by a degenerate `resize`; for positive source and
target dimensions Cover always returns an image of the target size and
Contain does so unless its computed scaled size degenerates to zero, in
which case it raises `ValueError`. -/
theorem C3_error_taxonomy_amended (source : Image) (tw th : Nat) (s : FitStrategy) :
    ((∃ img, create_store_asset source (tw, th) s = .ok img) ∨
      create_store_asset source (tw, th) s = .error .zeroDivisionError ∨
      create_store_asset source (tw, th) s = .error .valueError) ∧
    create_store_asset source (tw, th) s ≠ .error .invalidDimension ∧
    create_store_asset source (tw, th) s ≠ .error .emptyInput ∧
    (th = 0 → create_store_asset source (tw, th) s = .error .zeroDivisionError) ∧
    (th ≠ 0 → source.height = 0 →
      create_store_asset source (tw, th) s = .error .zeroDivisionError) ∧
    (0 < source.width → 0 < source.height → 0 < tw → 0 < th →
      exceptSize (create_store_asset source (tw, th) .cover) = some (tw, th) ∧
      (0 < (contain_new_size source.width source.height tw th).1 ∧
          0 < (contain_new_size source.width source.height tw th).2 →
        exceptSize (create_store_asset source (tw, th) .contain) = some (tw, th)) ∧
      ((contain_new_size source.width source.height tw th).1 = 0 ∨
          (contain_new_size source.width source.height tw th).2 = 0 →
        create_store_asset source (tw, th) .contain = .error .valueError)) := by
  have hcases := create_store_asset_cases source tw th s
  refine ⟨hcases, ?_, ?_, ?_, ?_, ?_⟩
  · rcases hcases with ⟨img, h⟩ | h | h <;> rw [h] <;> simp
  · rcases hcases with ⟨img, h⟩ | h | h <;> rw [h] <;> simp
  · intro h0
    subst h0
    exact create_store_asset_target_h_zero source tw s
  · intro hth hsh
    exact create_store_asset_source_h_zero source hth hsh s
  · intro hsw hsh htw hth
    exact ⟨create_store_asset_cover_size hsw hsh htw hth,
      fun h => create_store_asset_contain_size hsh hth h.1 h.2,
      fun h => create_store_asset_contain_err hth hsh h⟩

/-- C3 witness: at the 1920×1080 source and 462×174 target, Cover
returns an image (of the exact target size), and the failure clauses are
exercised at target height 0 and at a zero-height source. -/
theorem C3_error_taxonomy_witness :
    exceptSize (create_store_asset (constImg 1920 1080 (9, 9, 9)) (462, 174) .cover)
        = some (462, 174) ∧
    create_store_asset (constImg 1920 1080 (9, 9, 9)) (462, 174) .cover
        ≠ .error .invalidDimension ∧
    create_store_asset (constImg 1920 1080 (9, 9, 9)) (462, 0) .cover
        = .error .zeroDivisionError ∧
    create_store_asset (constImg 1920 0 (9, 9, 9)) (462, 174) .cover
        = .error .zeroDivisionError := by
  have h1 := C3_error_taxonomy_amended (constImg 1920 1080 (9, 9, 9)) 462 174 .cover
  have h2 := C3_error_taxonomy_amended (constImg 1920 1080 (9, 9, 9)) 462 0 .cover
  have h3 := C3_error_taxonomy_amended (constImg 1920 0 (9, 9, 9)) 462 174 .cover
  refine ⟨?_, h1.2.1, h2.2.2.2.1 rfl, h3.2.2.2.2.1 (by decide) rfl⟩
  exact (h1.2.2.2.2.2 (by decide) (by decide) (by decide) (by decide)).1

/-- C3 counterexample: with target height 0 the code raises
`ZeroDivisionError`, not `InvalidDimension` (no such exception exists in
the code), and with target width 0 (and positive height) Cover does not
fail at all — it returns a 0×430 result instead of rejecting the
non-positive target dimension. -/
theorem C3_invalid_dimension_counterexample :
    create_store_asset (constImg 1920 1080 (0, 0, 0)) (462, 0) .cover
        = .error .zeroDivisionError ∧
    (Except.error PyError.zeroDivisionError : Except PyError Image)
        ≠ .error .invalidDimension ∧
    exceptSize (create_store_asset (constImg 1920 1080 (0, 0, 0)) (0, 430) .cover)
        = some (0, 430) := by
  refine ⟨create_store_asset_target_h_zero _ _ _, by simp, ?_⟩
  have hgt : ratio 0 430 < ratio (constImg 1920 1080 (0, 0, 0)).width
      (constImg 1920 1080 (0, 0, 0)).height := by
    norm_num [constImg, ratio]
  have hnw : 0 < (cover_new_size (constImg 1920 1080 (0, 0, 0)).width
      (constImg 1920 1080 (0, 0, 0)).height 0 430).1 := by
    show 0 < (cover_new_size 1920 1080 0 430).1
    norm_num [cover_new_size, ratio, pyInt]
  rw [create_store_asset_cover_wide (by decide) (by decide) hgt hnw]
  simp [exceptSize, Image.cropPIL]

end Wavelet
